import Mathlib

/-
Verification development for the log4go template formatter (src/formatters.go)
and the stream / watched-file handlers (src/handlers.go).

Strings are modelled as `List Char`; Go ints are `Nat` (all values involved are
small and non-negative); Go `(value, error)` returns are modelled with `Except`
or with a `_ × Option _` pair when the mutate-on-success shape matters.
-/

deriving instance DecidableEq for Except

namespace L4G

/-- Modelled from the spec: `Level` is not defined under src/. The spec (§3)
describes a totally ordered enum with a distinguished `NOTSET` sentinel and the
five named levels used by the default coloring map. `notset` is the first
constructor, mirroring that a zero-valued Go `Level` is `NOTSET`. -/
inductive Level
  | notset
  | debug
  | info
  | warning
  | error
  | fatal
deriving DecidableEq, Repr

/-- Modelled from the spec: `LevelName` is not defined under src/. The spec
(§4.2) says the `level` selector renders "the level's display name"; canonical
upper-case names are used here. -/
def LevelName : Level → List Char
  | .notset => "NOTSET".toList
  | .debug => "DEBUG".toList
  | .info => "INFO".toList
  | .warning => "WARNING".toList
  | .error => "ERROR".toList
  | .fatal => "FATAL".toList

/-- Calendar components of a `time.Time`, as consumed by
`TemplateFormatter.formatTime` (src/formatters.go:308-315). -/
structure DateTime where
  year : Nat
  month : Nat
  day : Nat
  hour : Nat
  minute : Nat
  second : Nat
  nanosecond : Nat
deriving DecidableEq, Repr

/-- Modelled from the spec: `Record` is not defined under src/. The spec (§3)
gives its fields: `Time`, `Name` (possibly empty), `Level`, `Message`; these are
exactly the fields the two source files read (`r.Time`, `r.Name`, `r.Level`,
`r.Message`). -/
structure Record where
  time : DateTime
  name : List Char
  level : Level
  message : List Char
deriving DecidableEq, Repr

/-- Token representation: the Go code builds `[]interface{}` mixing `string`
literals and bit-packed `int` tokens (src/formatters.go:24, 170). -/
inductive Tok
  | str (s : List Char)
  | num (n : Nat)
deriving DecidableEq, Repr

/-- src/formatters.go:54-68, the `const` block. -/
def tfTime : Nat := 0

def tfTimeMilliseconds : Nat := 1

def tfName : Nat := 2

def tfBaseName : Nat := 3

def tfLevel : Nat := 4

def tfMessage : Nat := 5

def tfFieldWidth : Nat := 0x100

def tfFieldWidthMask : Nat := 0xff00

def tfFieldWidthShift : Nat := 8

def tfAlignRight : Nat := 0x10000

/-- src/formatters.go:71-78, the `tokenToValue` map. -/
def tokenToValue (s : List Char) : Option Nat :=
  if s = "time".toList then some tfTime
  else if s = "timems".toList then some tfTimeMilliseconds
  else if s = "name".toList then some tfName
  else if s = "basename".toList then some tfBaseName
  else if s = "level".toList then some tfLevel
  else if s = "message".toList then some tfMessage
  else none

/-- Splits a char list at its first right brace: returns the prefix of
non-brace characters and the remainder after the brace, or `none` when no
right brace occurs. Used to embed the regex `\x7b[^\x7d]+\x7d`. -/
def splitAtRBrace : List Char → Option (List Char × List Char)
  | [] => none
  | c :: rest =>
    if c = '}' then some ([], rest)
    else
      match splitAtRBrace rest with
      | some (p, r) => some (c :: p, r)
      | none => none

/-- Glues a literal character onto the literal prefix of the first upcoming
match; when there is no further match the character is dropped, matching the
Go compiler, which never appends the text after the last bracketed span
(src/formatters.go:172-205 has no trailing-literal append). -/
def consLit (c : Char) : List (List Char × List Char) → List (List Char × List Char)
  | [] => []
  | (lit, inner) :: t => (c :: lit, inner) :: t

/-- Fuelled worker for `scanTemplate`; each unit of fuel accompanies at least
one consumed character, so fuel equal to the input length is always enough. -/
def scanTemplateGo : Nat → List Char → List (List Char × List Char)
  | 0, _ => []
  | _ + 1, [] => []
  | fuel + 1, c :: rest =>
    if c = '{' then
      match splitAtRBrace rest with
      | some (inner, rest') =>
        if inner = [] then consLit c (scanTemplateGo fuel rest)
        else ([], inner) :: scanTemplateGo fuel rest'
      | none => []
    else consLit c (scanTemplateGo fuel rest)

/-- Embeds `templatePtn.FindAllStringIndex(template, -1)` together with the
literal-segment bookkeeping of the compile loop (src/formatters.go:158,
164-180): returns, for each non-overlapping leftmost match of the pattern
`\x7b[^\x7d]+\x7d`, the literal text preceding the match (possibly empty) and
the span content between the braces (nonempty, brace-free). -/
def scanTemplate (cs : List Char) : List (List Char × List Char) :=
  scanTemplateGo cs.length cs

/-- Checks whether a remainder is a valid alignment-and-width suffix for the
spec pattern `^\x7b([^\x7d]+?)(([<>])(\d+))?\x7d$` (src/formatters.go:161):
`some none` means the optional group is absent (remainder empty), `some (some
(isRight, digits))` means an alignment character followed by a nonempty digit
run, `none` means the remainder fits neither, so the non-greedy selector group
must grow. -/
def suffixSpec : List Char → Option (Option (Bool × List Char))
  | [] => some none
  | c :: ds =>
    if (c = '<' ∨ c = '>') ∧ ds ≠ [] ∧ ds.all Char.isDigit then
      some (some (c = '>', ds))
    else none

/-- Non-greedy selector extraction: grows the selector from the shortest
nonempty prefix until the remainder is a valid (possibly absent) suffix,
exactly as the non-greedy group `([^\x7d]+?)` backtracks. -/
def specSplitGo (acc : List Char) : List Char → List Char × Option (Bool × List Char)
  | [] => (acc, none)
  | c :: rest =>
    match suffixSpec (c :: rest) with
    | some suf => (acc, suf)
    | none => specSplitGo (acc ++ [c]) rest

/-- Embeds `templateSpecPtn.FindStringSubmatch(item)` (src/formatters.go:182):
decomposes a span content (the text between the braces) into the selector
(submatch 1) and, when present, the alignment (submatch 3, `true` for `>`) and
width digits (submatch 4). -/
def specSplit (inner : List Char) : List Char × Option (Bool × List Char) :=
  match inner with
  | [] => ([], none)
  | c :: rest => specSplitGo [c] rest

/-- Embeds `strconv.Atoi` on the digit run (src/formatters.go:187). The run is
all digits, so the conversion is plain base-10 accumulation; for values beyond
254 the caller clamps, so the `int`-range behavior of `Atoi` (which yields the
clamped maximum on overflow, also above 254) is indistinguishable. -/
def atoiDigits (ds : List Char) : Nat :=
  ds.foldl (fun n c => n * 10 + (c.toNat - '0'.toNat)) 0

/-- Embeds the width/alignment token emission, src/formatters.go:186-197: when
both an alignment and a digit run were captured, a positive parsed width is
clamped to 254 and emitted as `tfFieldWidth+(w-1)<<tfFieldWidthShift` (Go
precedence: the shift binds before the addition), followed by a separate
`tfAlignRight` token when the alignment was `>`; a parsed width of 0 emits
nothing. -/
def spanWidthTokens : Option (Bool × List Char) → List Tok
  | none => []
  | some (right, ds) =>
    let w := atoiDigits ds
    if w > 0 then
      let wc := if w > 254 then 254 else w
      Tok.num (tfFieldWidth + (wc - 1) * 2 ^ tfFieldWidthShift) ::
        (if right then [Tok.num tfAlignRight] else [])
    else []

/-- One of the two compile errors of `SetFormat` (src/formatters.go:166, 201). -/
inductive CompileErr
  | invalidTemplate (t : List Char)
  | unknownToken (tok : List Char)
deriving DecidableEq, Repr

/-- Compilation of one bracketed span (src/formatters.go:180-204): width and
alignment tokens first, then the selector looked up in `tokenToValue`; an
unrecognized selector aborts compilation with the unknown-token error. -/
def compileSpan (inner : List Char) : Except CompileErr (List Tok) :=
  match tokenToValue (specSplit inner).1 with
  | none => .error (.unknownToken (specSplit inner).1)
  | some v => .ok (spanWidthTokens (specSplit inner).2 ++ [Tok.num v])

/-- The compile loop over the matches (src/formatters.go:170-205): a nonempty
literal segment before a span becomes a string token, then the span's tokens;
the first bad span aborts with its error. -/
def compileSegments : List (List Char × List Char) → Except CompileErr (List Tok)
  | [] => .ok []
  | (lit, inner) :: rest =>
    let litToks := if lit = [] then [] else [Tok.str lit]
    match compileSpan inner with
    | .error e => .error e
    | .ok ts =>
      match compileSegments rest with
      | .error e => .error e
      | .ok more => .ok (litToks ++ ts ++ more)

/-- The full template-to-token-sequence compilation performed inside
`SetFormat` (src/formatters.go:156-205): zero bracketed spans is the
invalid-template error, otherwise the spans are compiled left to right. -/
def compile (template : List Char) : Except CompileErr (List Tok) :=
  if scanTemplate template = [] then .error (.invalidTemplate template)
  else compileSegments (scanTemplate template)

/-- The `TemplateFormatter` struct (src/formatters.go:22-29) restricted to the
fields the format path reads: the stored template string, the compiled token
list, the level-to-color map (a nil Go map reads as the empty string for every
level, modelled as the constantly-empty function) and the message processor.
The pattern-coloring pattern lists only feed `processMessage` and are not read
by `Format` itself. -/
structure TemplateFormatter where
  formatString : List Char
  formatTokens : List Tok
  levelColoring : Level → List Char
  processMessage : List Char → List Char → List Char

/-- src/formatters.go:37-39. -/
def defaultProcessMessage (m : List Char) (_ : List Char) : List Char := m

/-- `NewTemplateFormatter` (src/formatters.go:42-52): stores the template
string, installs the default message processor, then runs `SetFormat`; a
compile error fails construction. A fresh formatter has a nil coloring map. -/
def NewTemplateFormatter (format : List Char) : Except CompileErr TemplateFormatter :=
  match compile format with
  | .error e => .error e
  | .ok toks =>
    .ok { formatString := format, formatTokens := toks,
          levelColoring := fun _ => [], processMessage := defaultProcessMessage }

/-- `SetFormat` (src/formatters.go:156-210) as a state transformer: on success
the compiled token list replaces `formatTokens` (the stored `formatString` is
not touched by `SetFormat`; only the constructor writes it); on error the
receiver is returned unchanged together with the error. -/
def SetFormat (f : TemplateFormatter) (template : List Char) :
    TemplateFormatter × Option CompileErr :=
  match compile template with
  | .error e => (f, some e)
  | .ok toks => ({ f with formatTokens := toks }, none)

/-- `GetFormat` (src/formatters.go:213-215). -/
def GetFormat (f : TemplateFormatter) : List Char := f.formatString

/-- Left pad with a fill character to a minimum width, as `fmt.Sprintf` does
for `%4d`, `%02d` and `%5s` directives. -/
def padLeftWith (fill : Char) (w : Nat) (s : List Char) : List Char :=
  List.replicate (w - s.length) fill ++ s

/-- Right pad with spaces to a minimum width, as `fmt.Sprintf` does for a
`%-5s` directive. -/
def padRightWith (w : Nat) (s : List Char) : List Char :=
  s ++ List.replicate (w - s.length) ' '

/-- The decimal digits of a natural number. -/
def natToChars (n : Nat) : List Char := (Nat.repr n).toList

/-- `formatTime` (src/formatters.go:308-315): `%4d-%02d-%02d %02d:%02d:%02d`
(space-padded year, zero-padded components), plus `.%03d` milliseconds
(nanoseconds truncated by division) when the 1000 resolution is requested. -/
def formatTime (t : DateTime) (milliseconds : Bool) : List Char :=
  let base :=
    padLeftWith ' ' 4 (natToChars t.year) ++ "-".toList ++
    padLeftWith '0' 2 (natToChars t.month) ++ "-".toList ++
    padLeftWith '0' 2 (natToChars t.day) ++ " ".toList ++
    padLeftWith '0' 2 (natToChars t.hour) ++ ":".toList ++
    padLeftWith '0' 2 (natToChars t.minute) ++ ":".toList ++
    padLeftWith '0' 2 (natToChars t.second)
  if milliseconds then
    base ++ ".".toList ++ padLeftWith '0' 3 (natToChars (t.nanosecond / 1000000))
  else base

/-- `basename` rendering: the part of the name after the last slash
(src/formatters.go:264-265). -/
def baseName (s : List Char) : List Char :=
  ((s.splitOn '/').getLast? ).getD s

/-- The mutable locals of the render loop in `Format`
(src/formatters.go:224-227, 241): the accumulated parts, the pending
width/alignment (`alignFmt` plus `width`; `none` models the empty format
string, `some (right, w)` models `%w s` or `%-w s`), and the cached processed
message. -/
structure RenderState where
  parts : List (List Char)
  alignFmt : Option (Bool × Nat)
  processedMessage : List Char
deriving Repr

/-- The pad-then-truncate application of a pending width
(src/formatters.go:287-290): pad to the width (left pad when right-aligned),
then cut to the leftmost `w` characters when still longer. -/
def applyAlign (right : Bool) (w : Nat) (s : List Char) : List Char :=
  let s1 := if right then padLeftWith ' ' w s else padRightWith w s
  if s1.length > w then s1.take w else s1

/-- The tail of the int-token case (src/formatters.go:285-297): an empty
rendered text is not appended and leaves the pending width in place; nonempty
text consumes a pending width (pad, truncate, reset) and is appended. `pm` is
the possibly-updated `processedMessage`. -/
def emitField (st : RenderState) (s : List Char) (pm : List Char) : RenderState :=
  if s = [] then { st with processedMessage := pm }
  else
    match st.alignFmt with
    | some rw =>
      { parts := st.parts ++ [applyAlign rw.1 rw.2 s], alignFmt := none,
        processedMessage := pm }
    | none => { st with parts := st.parts ++ [s], processedMessage := pm }

/-- The int-token switch of the render loop (src/formatters.go:247-297),
producing the rendered text `s` for each selector; the width-directive case
sets the pending width from the masked bits and the alignment from the
`tfAlignRight` bit of the same token (the compiler emits `tfAlignRight` as a
separate token, on which every `case` of this switch fails, so it falls
through with `s` empty). -/
def processIntToken (f : TemplateFormatter) (r : Record) (lineColor : List Char)
    (st : RenderState) (n : Nat) : RenderState :=
  if n = tfTimeMilliseconds then emitField st (formatTime r.time true) st.processedMessage
  else if n = tfTime then emitField st (formatTime r.time false) st.processedMessage
  else if n = tfName then
    emitField st (if r.name = [] then "root".toList else r.name) st.processedMessage
  else if n = tfBaseName then
    emitField st (if r.name = [] then "root".toList else baseName r.name) st.processedMessage
  else if n = tfLevel then emitField st (LevelName r.level) st.processedMessage
  else if n = tfMessage then
    (if st.processedMessage ≠ [] then
      emitField st st.processedMessage st.processedMessage
    else if r.message ≠ [] then
      emitField st (f.processMessage r.message lineColor) (f.processMessage r.message lineColor)
    else emitField st [] st.processedMessage)
  else if n &&& tfFieldWidthMask > 0 then
    { st with
      alignFmt := some (n &&& tfAlignRight > 0, (n &&& tfFieldWidthMask) >>> tfFieldWidthShift) }
  else emitField st [] st.processedMessage

/-- One iteration of the render loop (src/formatters.go:243-299): a string
token is appended as-is (it neither consumes nor resets a pending width), an
int token goes through the switch. -/
def renderStep (f : TemplateFormatter) (r : Record) (lineColor : List Char)
    (st : RenderState) : Tok → RenderState
  | .str s => { st with parts := st.parts ++ [s] }
  | .num n => processIntToken f r lineColor st n

/-- src/formatters.go:217. -/
def colorReset : List Char := "\x1b[0m".toList

/-- The `ErrorNotSet` sentinel (src/formatters.go:13), the only error value
`Format` can return. -/
inductive FormatErr
  | errorNotSet
deriving DecidableEq, Repr

/-- `Format` (src/formatters.go:220-306): fails immediately with `ErrorNotSet`
on a `NOTSET` record; otherwise looks up the line color (emitted first and
reset last when nonempty), folds the render loop over the compiled tokens and
joins the parts. The byte/char distinction of Go strings is immaterial for the
ASCII data exercised here. -/
def Format (f : TemplateFormatter) (r : Record) : List Char × Option FormatErr :=
  if r.level = Level.notset then ([], some .errorNotSet)
  else
    let lineColor := f.levelColoring r.level
    let st0 : RenderState :=
      if lineColor ≠ [] then ⟨[lineColor], none, []⟩ else ⟨[], none, []⟩
    let stF := f.formatTokens.foldl (fun st tok => renderStep f r lineColor st tok) st0
    let allParts := if lineColor ≠ [] then stF.parts ++ [colorReset] else stF.parts
    (allParts.foldl (fun acc p => acc ++ p) [], none)

/-- The result of `info.Sys()` for a non-nil `os.FileInfo`: `sys = some (dev,
ino)` when the dynamic type is `*syscall.Stat_t`, `sys = none` when the type
assertion fails. -/
structure FileInfoM where
  sys : Option (Nat × Nat)
deriving DecidableEq, Repr

/-- A Go runtime panic, used where the source performs an operation the Go
specification defines to panic. -/
inductive GoPanic
  | nilInterfaceDeref
deriving DecidableEq, Repr

/-- `WatchedFileHandler.statFile` (src/handlers.go:220-227), parametrized by
the outcome of `os.Stat(h.filename)`: `none` models a failed stat (missing
file), for which `os.Stat` returns a nil `FileInfo` and the error the method
discards; the method then calls `info.Sys()` on the nil interface, which
panics per the Go specification. With a non-nil info, a failed type assertion
yields `(0, 0)` and a `*syscall.Stat_t` yields the device/inode pair. -/
def statFile (statResult : Option FileInfoM) : Except GoPanic (Nat × Nat) :=
  match statResult with
  | none => .error .nilInterfaceDeref
  | some info =>
    match info.sys with
    | some di => .ok di
    | none => .ok (0, 0)

/-- `WatchedFileHandler.fileHasMoved` (src/handlers.go:178-184): compares a
fresh stat of the path against the captured `(dev, inode)` identity; a panic
in `statFile` propagates. -/
def fileHasMoved (statResult : Option FileInfoM) (dev inode : Nat) : Except GoPanic Bool :=
  match statFile statResult with
  | .error p => .error p
  | .ok di => .ok (decide (di.1 ≠ dev ∨ di.2 ≠ inode))

/-- The `WatchedFileHandler` fields the write path reads (src/handlers.go:
138-146), with open file handles named by numbers: `writerHandle` is the
handle stored in the promoted `Writer` field the committer writes to, and
`(dev, inode)` is the identity captured at open time. -/
structure WatchedState where
  writerHandle : Nat
  dev : Nat
  inode : Nat
deriving DecidableEq, Repr

/-- `StreamHandler.onPreWrite` (src/handlers.go:92-94): the default pre-write
hook does nothing. -/
def streamOnPreWrite (s : WatchedState) : WatchedState := s

/-- The pre-write hook the consumer actually runs: `committer` is declared on
`*StreamHandler` (src/handlers.go:96), so the call `h.onPreWrite()` at
src/handlers.go:111 resolves statically to `StreamHandler.onPreWrite`; Go
method promotion through an embedded struct gives no virtual dispatch, so
`WatchedFileHandler.onPreWrite` (src/handlers.go:169-176) is never invoked by
the consumer. -/
def committerPreWrite (s : WatchedState) : WatchedState := streamOnPreWrite s

/-- The handle the consumer's `h.Writer.Write(msg)` (src/handlers.go:113)
targets, after the pre-write hook has run. -/
def committerWriteTarget (s : WatchedState) : Nat := (committerPreWrite s).writerHandle

/-- The shared state of one `StreamHandler` (src/handlers.go:21-28) together
with its consumer goroutine and a `Shutdown` caller, under a sequentially
consistent interleaving: `queue` is the buffered content of `CommitChannel`
(capacity 100), `stopPending` records a `Shutdown` caller blocked sending on
the unbuffered `CommitterStop`, `shutdownInProgress` spans `Shutdown` from its
flag write to its return, and `committerExited` records whether the consumer's
`for` loop has terminated. -/
structure HandlerSys where
  queue : List Record
  shutdownFlag : Bool
  stopPending : Bool
  shutdownInProgress : Bool
  shutdownReturned : Bool
  channelsClosed : Bool
  writes : List Record
  committerExited : Bool
deriving DecidableEq, Repr

/-- The state right after `NewStreamHandler` (src/handlers.go:31-42). -/
def initialSys : HandlerSys :=
  { queue := [], shutdownFlag := false, stopPending := false,
    shutdownInProgress := false, shutdownReturned := false,
    channelsClosed := false, writes := [], committerExited := false }

/-- One atomic scheduler step of a producer, the `Shutdown` caller, or the
consumer's select. -/
inductive SysAction
  | handleCall (r : Record)
  | committerRecv
  | committerStopRecv
  | shutdownCall
  | shutdownReturn
  | committerRecvClosed
  | committerStopRecvClosed
deriving DecidableEq, Repr

/-- The interleaving semantics; `none` means the action is not enabled (its
thread is blocked or its guard fails).

`handleCall` is `Handle` (src/handlers.go:74-79): with the shutdown flag set
it silently drops the record, otherwise it enqueues, blocking while the
buffered channel is full.

`committerRecv` is the consumer's record arm (src/handlers.go:99-115): the
head record is formatted — a `NOTSET` record yields `ErrorNotSet`, which is
skipped with `continue` — and otherwise written to the sink. A closed channel
still delivers its buffered records, so this arm stays enabled after close.

`committerStopRecv` is the consumer's stop arm (src/handlers.go:117-118): it
completes the `Shutdown` caller's blocking send. The `break` it executes
terminates only the `select` statement (Go spec: an unlabeled `break` binds to
the innermost `for`, `switch` or `select`), and the enclosing `for` has no
exit path, so the loop runs again and `committerExited` is never set.

`shutdownCall`/`shutdownReturn` split `Shutdown` (src/handlers.go:82-90) at
its blocking send: the first call flips the flag and blocks sending the stop
signal; once the consumer has taken it, `Shutdown` closes both channels and
returns. A repeated call observes the flag and returns at once.

`committerRecvClosed` and `committerStopRecvClosed` are the select arms on the
closed channels after `Shutdown` returned: a drained closed `CommitChannel`
delivers the zero `Record`, whose `NOTSET` level makes `Format` fail, so
nothing is written; the closed `CommitterStop` delivers immediately and the
select-scoped `break` again leaves the loop running. -/
def sysStep (s : HandlerSys) : SysAction → Option HandlerSys
  | .handleCall r =>
    if s.shutdownFlag then some s
    else if s.queue.length < 100 then some { s with queue := s.queue ++ [r] }
    else none
  | .committerRecv =>
    match s.queue with
    | [] => none
    | r :: rest =>
      if r.level = Level.notset then some { s with queue := rest }
      else some { s with queue := rest, writes := s.writes ++ [r] }
  | .committerStopRecv =>
    if s.stopPending then some { s with stopPending := false } else none
  | .shutdownCall =>
    if s.shutdownFlag then some s
    else some { s with shutdownFlag := true, stopPending := true, shutdownInProgress := true }
  | .shutdownReturn =>
    if s.shutdownInProgress ∧ ¬s.stopPending then
      some { s with shutdownInProgress := false, shutdownReturned := true,
                    channelsClosed := true }
    else none
  | .committerRecvClosed =>
    if s.channelsClosed ∧ s.queue = [] then some s else none
  | .committerStopRecvClosed =>
    if s.channelsClosed then some s else none

/-- Runs a schedule; fails when some action is not enabled at its turn. -/
def sysRun (s : HandlerSys) : List SysAction → Option HandlerSys
  | [] => some s
  | a :: rest =>
    match sysStep s a with
    | some t => sysRun t rest
    | none => none

/-- The records already written followed by the queued records that will
survive formatting, in order. -/
def ledger (s : HandlerSys) : List Record :=
  s.writes ++ s.queue.filter (fun r => decide (r.level ≠ Level.notset))

/-- A record with name `abc` at level INFO, used as the width/alignment test
subject. -/
def recInfoAbc : Record := ⟨⟨2024, 1, 2, 3, 4, 5, 0⟩, "abc".toList, .info, []⟩

/-- A record at the NOTSET level. -/
def recNotSet : Record := ⟨⟨2024, 1, 2, 3, 4, 5, 0⟩, "abc".toList, .notset, "hello".toList⟩

/-- An ordinary record a producer enqueues in the handler schedules. -/
def recJob : Record := ⟨⟨2024, 1, 2, 3, 4, 5, 0⟩, "worker".toList, .info, "job done".toList⟩

/-- The formatter `NewTemplateFormatter` builds for the one-field template
with the `name` selector. -/
def fmtNameOnly : TemplateFormatter :=
  { formatString := "{name}".toList, formatTokens := [Tok.num tfName],
    levelColoring := fun _ => [], processMessage := defaultProcessMessage }

/-- The formatter built for the left-aligned width-5 `name` template. -/
def fmtNameW5 : TemplateFormatter :=
  { formatString := "{name<5}".toList,
    formatTokens := [Tok.num (tfFieldWidth + 4 * 2 ^ tfFieldWidthShift), Tok.num tfName],
    levelColoring := fun _ => [], processMessage := defaultProcessMessage }

/-- The formatter built for the left-aligned width-2 `name` template. -/
def fmtNameW2 : TemplateFormatter :=
  { formatString := "{name<2}".toList,
    formatTokens := [Tok.num (tfFieldWidth + 1 * 2 ^ tfFieldWidthShift), Tok.num tfName],
    levelColoring := fun _ => [], processMessage := defaultProcessMessage }

/-- The formatter built for the right-aligned width-5 `name` template: the
compiler emits the alignment as a separate `tfAlignRight` token after the
width token. -/
def fmtNameR5 : TemplateFormatter :=
  { formatString := "{name>5}".toList,
    formatTokens := [Tok.num (tfFieldWidth + 4 * 2 ^ tfFieldWidthShift),
                     Tok.num tfAlignRight, Tok.num tfName],
    levelColoring := fun _ => [], processMessage := defaultProcessMessage }

/-- The formatter built for a width-5 `message` field followed by a bare
`name` field. -/
def fmtMsgW5Name : TemplateFormatter :=
  { formatString := "{message<5}{name}".toList,
    formatTokens := [Tok.num (tfFieldWidth + 4 * 2 ^ tfFieldWidthShift),
                     Tok.num tfMessage, Tok.num tfName],
    levelColoring := fun _ => [], processMessage := defaultProcessMessage }

/-- The formatter state after recompiling `fmtNameOnly` with the `level`
template. -/
def fmtNameThenLevel : TemplateFormatter := (SetFormat fmtNameOnly "{level}".toList).1

/-- A render state with a pending left-aligned width 5. -/
def stPending : RenderState := ⟨[], some (false, 5), []⟩

/-- A watched-file handler state holding handle 1 open on the file whose
identity `(10, 100)` was captured at open time. -/
def wfhCaptured : WatchedState := ⟨1, 10, 100⟩

end L4G

namespace L4G

theorem splitAtRBrace_length :
    ∀ l p r, splitAtRBrace l = some (p, r) → r.length < l.length := by
  intro l
  induction l with
  | nil => intro p r h; simp [splitAtRBrace] at h
  | cons c rest ih =>
    intro p r h
    by_cases hc : c = '}'
    · simp [splitAtRBrace, hc] at h
      simp [← h.2]
    · simp only [splitAtRBrace, if_neg hc] at h
      cases hsp : splitAtRBrace rest with
      | none => rw [hsp] at h; simp at h
      | some pr =>
        rw [hsp] at h
        simp at h
        have := ih pr.1 pr.2 (by rw [hsp])
        have hr : r = pr.2 := by
          cases pr; simp at h; exact h.2.symm
        simp [hr]
        omega

/-- Fuel adequacy: any two sufficient fuel amounts give the same scan. -/
theorem scanTemplateGo_congr :
    ∀ f g cs, cs.length ≤ f → cs.length ≤ g → scanTemplateGo f cs = scanTemplateGo g cs := by
  intro f
  induction f with
  | zero =>
    intro g cs hf _
    have : cs = [] := by
      cases cs with
      | nil => rfl
      | cons c r => simp at hf
    cases g <;> simp [this, scanTemplateGo]
  | succ n ih =>
    intro g cs hf hg
    cases cs with
    | nil => cases g <;> simp [scanTemplateGo]
    | cons c rest =>
      cases g with
      | zero => simp at hg
      | succ m =>
        have hn : rest.length ≤ n := by simp at hf; omega
        have hm : rest.length ≤ m := by simp at hg; omega
        simp only [scanTemplateGo]
        by_cases hc : c = '{'
        · simp only [hc, if_true]
          cases hsp : splitAtRBrace rest with
          | none => rfl
          | some pr =>
            cases pr with
            | mk inner rest' =>
              have hlt := splitAtRBrace_length rest inner rest' hsp
              by_cases hi : inner = []
              · simp only [hi, if_true]
                rw [ih m rest hn hm]
              · simp only [if_neg hi]
                rw [ih m rest' (by omega) (by omega)]
        · simp only [if_neg hc]
          rw [ih m rest hn hm]

/-- Fuel adequacy for `scanTemplate`: its fuel choice of the input length is
canonical. -/
theorem scanTemplateGo_fuel (fuel : Nat) (cs : List Char) (h : cs.length ≤ fuel) :
    scanTemplateGo fuel cs = scanTemplate cs :=
  scanTemplateGo_congr fuel cs.length cs h (le_refl _)

end L4G

namespace L4G

/-- Appending a nonempty chunk changes a list. -/
theorem append_singleton_ne (l : List (List Char)) (x : List Char) : l ++ [x] ≠ l := by
  intro h
  have := congrArg List.length h
  simp at this

/-- `emitField` consumes the pending width exactly when it appends text: empty
rendered text leaves both the parts and the pending width untouched, nonempty
text appends and clears the pending width. -/
theorem emitField_pending (st : RenderState) (s pm : List Char) :
    ((emitField st s pm).parts = st.parts → (emitField st s pm).alignFmt = st.alignFmt)
    ∧ ((emitField st s pm).parts ≠ st.parts → (emitField st s pm).alignFmt = none) := by
  unfold emitField
  by_cases hs : s = []
  · simp [hs]
  · simp only [if_neg hs]
    cases hal : st.alignFmt with
    | some rw =>
      constructor
      · intro h
        exact absurd h (append_singleton_ne st.parts _)
      · intro _
        rfl
    | none =>
      constructor
      · intro _
        rfl
      · intro _
        rfl

/-- Claim C8: `Format` on a record whose level is `NOTSET` fails immediately,
returning the empty byte sequence and the `ErrorNotSet` error, regardless of
the formatter (template, coloring, message processor) and of the other record
fields. -/
theorem claim8_format_notset (f : TemplateFormatter) (r : Record)
    (h : r.level = Level.notset) : Format f r = ([], some FormatErr.errorNotSet) := by
  simp [Format, h]

theorem claim8_format_notset_witness :
    Format fmtNameOnly recNotSet = ([], some FormatErr.errorNotSet) :=
  claim8_format_notset fmtNameOnly recNotSet rfl

/-- Claim C6, counterexample: on an already-built formatter a successful
`SetFormat` does not replace the stored template string — built from
`{name}` and successfully recompiled with `{level}`, the formatter still
reports `{name}` from `GetFormat`, not the new template. -/
theorem claim6_getformat_stale :
    NewTemplateFormatter "{name}".toList = .ok fmtNameOnly
    ∧ (SetFormat fmtNameOnly "{level}".toList).2 = none
    ∧ GetFormat (SetFormat fmtNameOnly "{level}".toList).1 = "{name}".toList
    ∧ "{name}".toList ≠ "{level}".toList :=
  ⟨rfl, rfl, rfl, by decide⟩

/-- Claim C6, amended: a successful `SetFormat t` on an already-built
formatter replaces the compiled token sequence with the compilation of `t`,
but leaves the stored template string unchanged, so `GetFormat` keeps
returning the construction-time template. -/
theorem claim6_setformat_keeps_string (f : TemplateFormatter) (t : List Char)
    (g : TemplateFormatter) (h : SetFormat f t = (g, none)) :
    GetFormat g = GetFormat f ∧ compile t = .ok g.formatTokens := by
  unfold SetFormat at h
  cases hc : compile t with
  | error e => rw [hc] at h; simp at h
  | ok toks =>
    rw [hc] at h
    have hg : ({ f with formatTokens := toks } : TemplateFormatter) = g := by
      have := congrArg Prod.fst h
      exact this
    rw [← hg]
    exact ⟨rfl, rfl⟩

theorem claim6_setformat_keeps_string_witness :
    GetFormat fmtNameThenLevel = GetFormat fmtNameOnly
    ∧ compile "{level}".toList = .ok fmtNameThenLevel.formatTokens :=
  claim6_setformat_keeps_string fmtNameOnly "{level}".toList fmtNameThenLevel rfl

/-- Claim C4: formatting the field value `abc` with `{name<5}` yields `abc  `
and with `{name<2}` yields `ab`, as claimed; but with `{name>5}` the code
yields `abc  `, not the claimed `  abc`: the renderer reads the alignment from
the `tfAlignRight` bit of the width token, while the compiler emits
`tfAlignRight` as a separate token that matches no case of the render switch,
so right alignment is never applied. -/
theorem claim4_right_align_ignored :
    (NewTemplateFormatter "{name<5}".toList = .ok fmtNameW5
      ∧ (Format fmtNameW5 recInfoAbc).1 = "abc  ".toList)
    ∧ (NewTemplateFormatter "{name<2}".toList = .ok fmtNameW2
      ∧ (Format fmtNameW2 recInfoAbc).1 = "ab".toList)
    ∧ (NewTemplateFormatter "{name>5}".toList = .ok fmtNameR5
      ∧ (Format fmtNameR5 recInfoAbc).1 = "abc  ".toList
      ∧ "abc  ".toList ≠ "  abc".toList) :=
  ⟨⟨rfl, by decide⟩, ⟨rfl, by decide⟩, ⟨rfl, by decide, by decide⟩⟩

/-- Claim C7, counterexample: a pending width is not consumed by a token that
renders empty text — compiling `{message<5}{name}` and formatting a record
with an empty message, the width 5 skips the empty `message` field and pads
the later `name` field, yielding `abc  ` where consuming the width at
`message` would yield `abc`. -/
theorem claim7_pending_width_carries_over :
    NewTemplateFormatter "{message<5}{name}".toList = .ok fmtMsgW5Name
    ∧ (Format fmtMsgW5Name recInfoAbc).1 = "abc  ".toList
    ∧ "abc  ".toList ≠ "abc".toList :=
  ⟨rfl, by decide, by decide⟩

/-- Claim C7, amended: during rendering, a pending width/alignment is consumed
(reset) only by a token that produces nonempty renderable text; a non-width
token that renders empty (for example a `message` field whose message is
empty) leaves the pending width in place, so it applies to a later field. -/
theorem claim7_pending_consumed_only_by_text (f : TemplateFormatter) (r : Record)
    (lc : List Char) (st : RenderState) (n : Nat) (hn : n &&& tfFieldWidthMask = 0) :
    ((processIntToken f r lc st n).parts = st.parts →
      (processIntToken f r lc st n).alignFmt = st.alignFmt)
    ∧ ((processIntToken f r lc st n).parts ≠ st.parts →
      (processIntToken f r lc st n).alignFmt = none) := by
  unfold processIntToken
  split_ifs <;> first
    | exact emitField_pending _ _ _
    | omega

theorem claim7_pending_consumed_only_by_text_witness :
    (processIntToken fmtMsgW5Name recInfoAbc [] stPending tfName).alignFmt = none :=
  (claim7_pending_consumed_only_by_text fmtMsgW5Name recInfoAbc [] stPending tfName
    (by decide)).2 (by decide)

end L4G

namespace L4G

/-- A failed span compilation is always the unknown-token error naming the
span's parsed selector. -/
theorem compileSpan_error_shape (inner : List Char) (e : CompileErr)
    (h : compileSpan inner = .error e) : e = .unknownToken (specSplit inner).1 := by
  unfold compileSpan at h
  cases ht : tokenToValue (specSplit inner).1 <;> rw [ht] at h <;> simp at h
  exact h.symm

/-- A failed segment compilation is always an unknown-token error. -/
theorem compileSegments_error_unknown :
    ∀ segs e, compileSegments segs = .error e → ∃ s, e = CompileErr.unknownToken s := by
  intro segs
  induction segs with
  | nil => intro e h; simp [compileSegments] at h
  | cons q rest ih =>
    intro e h
    cases q with
    | mk lit inner =>
      simp only [compileSegments] at h
      cases hs : compileSpan inner with
      | error e2 =>
        rw [hs] at h
        simp at h
        exact ⟨(specSplit inner).1, by rw [← h, compileSpan_error_shape inner e2 hs]⟩
      | ok ts =>
        rw [hs] at h
        cases hr : compileSegments rest with
        | error e3 =>
          rw [hr] at h
          simp at h
          rcases ih e3 hr with ⟨s, rfl⟩
          exact ⟨s, h.symm⟩
        | ok more => rw [hr] at h; simp at h

/-- A bad selector anywhere among the spans makes segment compilation fail
with an unknown-token error. -/
theorem compileSegments_finds_bad :
    ∀ segs, (∃ p ∈ segs, tokenToValue (specSplit p.2).1 = none) →
      ∃ s, compileSegments segs = .error (CompileErr.unknownToken s) := by
  intro segs
  induction segs with
  | nil => intro h; simp at h
  | cons q rest ih =>
    intro h
    cases q with
    | mk lit inner =>
      simp only [compileSegments]
      cases hs : compileSpan inner with
      | error e2 =>
        refine ⟨(specSplit inner).1, ?_⟩
        rw [compileSpan_error_shape inner e2 hs]
      | ok ts =>
        have hbad : ∃ p ∈ rest, tokenToValue (specSplit p.2).1 = none := by
          rcases h with ⟨p, hp, hb⟩
          rcases List.mem_cons.mp hp with h1 | h2
          · exfalso
            subst h1
            unfold compileSpan at hs
            rw [hb] at hs
            simp at hs
          · exact ⟨p, h2, hb⟩
        rcases ih hbad with ⟨s, hrest⟩
        rw [hrest]
        exact ⟨s, rfl⟩

/-- Claim C9: `SetFormat` fails with the invalid-template error exactly when
the input contains no bracketed span; any span whose parsed selector is not
one of the six recognized names makes it fail with an unknown-token error; and
on every failure the formatter is returned unchanged, with no partial token
sequence installed. -/
theorem claim9_setformat_errors (f : TemplateFormatter) (t : List Char) :
    ((SetFormat f t).2 = some (CompileErr.invalidTemplate t) ↔ scanTemplate t = [])
    ∧ (∀ e, (SetFormat f t).2 = some e → (SetFormat f t).1 = f)
    ∧ ((∃ p ∈ scanTemplate t, tokenToValue (specSplit p.2).1 = none) →
        ∃ s, (SetFormat f t).2 = some (CompileErr.unknownToken s)) := by
  unfold SetFormat compile
  by_cases hscan : scanTemplate t = []
  · simp [hscan]
  · simp only [if_neg hscan]
    refine ⟨?_, ?_, ?_⟩
    · constructor
      · intro h
        cases hc : compileSegments (scanTemplate t) with
        | error e =>
          rw [hc] at h
          simp at h
          rcases compileSegments_error_unknown _ e hc with ⟨s, rfl⟩
          simp at h
        | ok toks => rw [hc] at h; simp at h
      · intro h
        exact absurd h hscan
    · intro e h
      cases hc : compileSegments (scanTemplate t) with
      | error e2 => rfl
      | ok toks => rw [hc] at h; simp at h
    · intro hbad
      rcases compileSegments_finds_bad _ hbad with ⟨s, hcs⟩
      rw [hcs]
      exact ⟨s, rfl⟩

theorem claim9_setformat_errors_witness :
    (SetFormat fmtNameOnly "no braces here".toList).2 =
      some (CompileErr.invalidTemplate "no braces here".toList)
    ∧ (SetFormat fmtNameOnly "no braces here".toList).1 = fmtNameOnly := by
  have h := claim9_setformat_errors fmtNameOnly "no braces here".toList
  have h1 := h.1.mpr (by decide)
  exact ⟨h1, h.2.1 _ h1⟩

set_option maxRecDepth 4000 in
/-- The renderer's width decode recovers the clamped width from the packed
token: the tag bit `tfFieldWidth` sits inside the masked byte, so masking and
shifting yield the stored `w-1` plus one. -/
theorem decodeWidthAux :
    ∀ v < 254, ((tfFieldWidth + v * 2 ^ tfFieldWidthShift) &&& tfFieldWidthMask) >>>
      tfFieldWidthShift = v + 1 := by decide

/-- The pad-then-truncate step always produces exactly the pending width. -/
theorem applyAlign_length (right : Bool) (w : Nat) (s : List Char) :
    (applyAlign right w s).length = w := by
  unfold applyAlign padLeftWith padRightWith
  by_cases hr : right <;> simp [hr] <;> split_ifs with h1 <;> simp_all <;> omega

/-- Claim C10: a parsed width of 0 emits no width or alignment token (shown
both on the compiled `name` template with width 0 and on the emission
function); a nonzero parsed width `w` is clamped to 254 and encoded as
`tfFieldWidth + (w-1) << tfFieldWidthShift`, from which the renderer's
mask-and-shift decode recovers exactly the clamped width; and applying a
pending width pads and truncates the field text to exactly that many
characters. -/
theorem claim10_width_encoding :
    compile "{name<0}".toList = .ok [Tok.num tfName]
    ∧ (∀ (right : Bool) (ds : List Char), atoiDigits ds = 0 →
        spanWidthTokens (some (right, ds)) = [])
    ∧ (∀ (right : Bool) (ds : List Char) (w : Nat), atoiDigits ds = w → 1 ≤ w →
        spanWidthTokens (some (right, ds)) =
          Tok.num (tfFieldWidth + (min w 254 - 1) * 2 ^ tfFieldWidthShift) ::
            (if right then [Tok.num tfAlignRight] else [])
        ∧ ((tfFieldWidth + (min w 254 - 1) * 2 ^ tfFieldWidthShift) &&& tfFieldWidthMask) >>>
            tfFieldWidthShift = min w 254)
    ∧ (∀ (right : Bool) (w : Nat) (s : List Char), (applyAlign right w s).length = w) := by
  refine ⟨by decide, ?_, ?_, fun right w s => applyAlign_length right w s⟩
  · intro right ds h
    simp [spanWidthTokens, h]
  · intro right ds w h hw
    have hwc : (if w > 254 then 254 else w) = min w 254 := by
      split_ifs with h2 <;> omega
    constructor
    · simp only [spanWidthTokens, h]
      rw [if_pos (by omega), hwc]
    · have hv := decodeWidthAux (min w 254 - 1) (by omega)
      have : min w 254 - 1 + 1 = min w 254 := by omega
      rw [this] at hv
      exact hv

theorem claim10_width_encoding_witness :
    spanWidthTokens (some (false, ['7'])) =
      Tok.num (tfFieldWidth + (min 7 254 - 1) * 2 ^ tfFieldWidthShift) ::
        (if false then [Tok.num tfAlignRight] else [])
    ∧ ((tfFieldWidth + (min 7 254 - 1) * 2 ^ tfFieldWidthShift) &&& tfFieldWidthMask) >>>
        tfFieldWidthShift = min 7 254 :=
  claim10_width_encoding.2.2.1 false ['7'] 7 (by decide) (by decide)

end L4G

namespace L4G

/-- Claim C5: when the stat of the configured path fails (missing file), the
code does not degenerate to the `(0, 0)` identity — it calls `Sys()` on the
nil `FileInfo` interface returned by the failed `os.Stat`, a runtime panic.
The `(0, 0)` degeneracy, and the forced-reopen mismatch against a nonzero
captured identity, only arise when the stat succeeds but the value is not a
`*syscall.Stat_t`. -/
theorem claim5_statfile_panics :
    statFile none = .error GoPanic.nilInterfaceDeref
    ∧ statFile (some ⟨none⟩) = .ok (0, 0)
    ∧ fileHasMoved (some ⟨none⟩) 10 100 = .ok true :=
  ⟨rfl, rfl, by decide⟩

/-- Claim C1: with the path replaced by a file of a different identity — the
captured pair is `(10, 100)`, a fresh stat returns `(10, 200)`, so
`fileHasMoved` would report true — the pre-write hook the consumer task runs
is `StreamHandler.onPreWrite`, which changes nothing (Go resolves the call in
`committer` statically; the watched-file override is never invoked), and the
next write still targets the old handle 1, not a handle on the new file. -/
theorem claim1_write_goes_to_old_handle :
    fileHasMoved (some ⟨some (10, 200)⟩) wfhCaptured.dev wfhCaptured.inode = .ok true
    ∧ (∀ s : WatchedState, committerPreWrite s = s)
    ∧ committerWriteTarget wfhCaptured = 1 :=
  ⟨by decide, fun _ => rfl, rfl⟩

/-- No scheduler step ever changes `committerExited`: the consumer's `for`
loop has no exit path, because the `break` in the stop arm terminates only the
`select` statement. -/
theorem committer_loop_never_exits (s : HandlerSys) (a : SysAction) (t : HandlerSys)
    (h : sysStep s a = some t) : t.committerExited = s.committerExited := by
  cases a <;> simp only [sysStep] at h <;>
    (try split at h) <;> (try split at h) <;>
    first
      | exact Option.noConfusion h
      | (injection h with h2; rw [← h2])

/-- Claim C2: after `Shutdown()` has returned (the stop signal was sent,
received, and the channels closed), the consumer task has not exited — the
`break` in the stop arm only leaves the `select` — and a record that was still
queued when `Shutdown()` returned is subsequently received and written to the
sink, so writes can occur after `Shutdown()` returns. -/
theorem claim2_committer_keeps_running :
    (sysRun initialSys
        [SysAction.handleCall recJob, SysAction.shutdownCall,
         SysAction.committerStopRecv, SysAction.shutdownReturn]).map
      (fun t => (t.shutdownReturned, t.committerExited, t.writes, t.queue)) =
      some (true, false, [], [recJob])
    ∧ (sysRun initialSys
        [SysAction.handleCall recJob, SysAction.shutdownCall,
         SysAction.committerStopRecv, SysAction.shutdownReturn,
         SysAction.committerRecv]).map
      (fun t => (t.shutdownReturned, t.committerExited, t.writes, t.queue)) =
      some (true, false, [recJob], []) :=
  ⟨by decide, by decide⟩

/-- Claim C3, counterexample: one record is enqueued via `Handle` and
`Shutdown()` is then called; the consumer's select takes the stop signal
before the queued record (both arms are ready, so this schedule is admissible)
and `Shutdown()` returns with the record still queued and nothing written —
`Shutdown()` does not wait for queued records to be formatted and written. -/
theorem claim3_shutdown_returns_undrained :
    (sysRun initialSys
        [SysAction.handleCall recJob, SysAction.shutdownCall,
         SysAction.committerStopRecv, SysAction.shutdownReturn]).map
      (fun t => (t.shutdownReturned, t.writes, t.queue)) = some (true, [], [recJob]) := by
  decide

/-- Claim C3, amended: the pipeline preserves FIFO order and loses nothing in
transit — across every scheduler step, the written records only grow at the
tail, and the written records followed by the queued records that survive
formatting are invariant except for a newly accepted `Handle` record appended
at the end. `Shutdown()`, however, gives no drain guarantee: it can return
while records are still queued (they are written later by the still-running
consumer, or not at all if the process ends). -/
theorem claim3_fifo_no_loss (s : HandlerSys) (a : SysAction) (t : HandlerSys)
    (h : sysStep s a = some t) :
    (∃ w, t.writes = s.writes ++ w)
    ∧ (ledger t = ledger s
       ∨ ∃ r, a = SysAction.handleCall r ∧ ledger t = ledger s ++ [r]) := by
  cases a with
  | handleCall r =>
    simp only [sysStep] at h
    by_cases h1 : s.shutdownFlag
    · rw [if_pos h1] at h
      injection h with h2
      subst h2
      exact ⟨⟨[], by simp⟩, Or.inl rfl⟩
    · rw [if_neg h1] at h
      by_cases h2 : s.queue.length < 100
      · rw [if_pos h2] at h
        injection h with h3
        subst h3
        refine ⟨⟨[], by simp⟩, ?_⟩
        by_cases hl : r.level = Level.notset
        · left
          simp [ledger, List.filter_append, hl]
        · right
          exact ⟨r, rfl, by simp [ledger, List.filter_append, hl]⟩
      · rw [if_neg h2] at h
        exact Option.noConfusion h
  | committerRecv =>
    simp only [sysStep] at h
    cases hq : s.queue with
    | nil => rw [hq] at h; exact Option.noConfusion h
    | cons r rest =>
      rw [hq] at h
      by_cases hl : r.level = Level.notset
      · simp only [List.cons.injEq, if_pos hl] at h
        injection h with h3
        subst h3
        refine ⟨⟨[], by simp⟩, Or.inl ?_⟩
        simp [ledger, hq, hl]
      · simp only [List.cons.injEq, if_neg hl] at h
        injection h with h3
        subst h3
        refine ⟨⟨[r], rfl⟩, Or.inl ?_⟩
        simp [ledger, hq, hl]
  | committerStopRecv =>
    simp only [sysStep] at h
    by_cases h1 : s.stopPending
    · rw [if_pos h1] at h
      injection h with h2
      subst h2
      exact ⟨⟨[], by simp⟩, Or.inl rfl⟩
    · rw [if_neg h1] at h
      exact Option.noConfusion h
  | shutdownCall =>
    simp only [sysStep] at h
    by_cases h1 : s.shutdownFlag
    · rw [if_pos h1] at h
      injection h with h2
      subst h2
      exact ⟨⟨[], by simp⟩, Or.inl rfl⟩
    · rw [if_neg h1] at h
      injection h with h2
      subst h2
      exact ⟨⟨[], by simp⟩, Or.inl rfl⟩
  | shutdownReturn =>
    simp only [sysStep] at h
    by_cases h1 : s.shutdownInProgress ∧ ¬s.stopPending
    · rw [if_pos h1] at h
      injection h with h2
      subst h2
      exact ⟨⟨[], by simp⟩, Or.inl rfl⟩
    · rw [if_neg h1] at h
      exact Option.noConfusion h
  | committerRecvClosed =>
    simp only [sysStep] at h
    by_cases h1 : s.channelsClosed ∧ s.queue = []
    · rw [if_pos h1] at h
      injection h with h2
      subst h2
      exact ⟨⟨[], by simp⟩, Or.inl rfl⟩
    · rw [if_neg h1] at h
      exact Option.noConfusion h
  | committerStopRecvClosed =>
    simp only [sysStep] at h
    by_cases h1 : s.channelsClosed
    · rw [if_pos h1] at h
      injection h with h2
      subst h2
      exact ⟨⟨[], by simp⟩, Or.inl rfl⟩
    · rw [if_neg h1] at h
      exact Option.noConfusion h

theorem claim3_fifo_no_loss_witness :
    (∃ w, ({ initialSys with queue := [recJob] } : HandlerSys).writes =
      initialSys.writes ++ w)
    ∧ (ledger { initialSys with queue := [recJob] } = ledger initialSys
       ∨ ∃ r, SysAction.handleCall recJob = SysAction.handleCall r
         ∧ ledger { initialSys with queue := [recJob] } = ledger initialSys ++ [r]) :=
  claim3_fifo_no_loss initialSys (SysAction.handleCall recJob)
    { initialSys with queue := [recJob] } (by decide)

end L4G
